import Mathlib

/-!
Verification of the reactive selection coordinator (`CausalViewStore`).

The development embeds the store as a pure state-transition system:

* the mobx observables (`explorationKey`, `graphNodeSelectionMode`,
  `_selectedNodes`) and the latest emission of the `fields$` stream become
  fields of `State`;
* the `selectedFidArr$` subject together with its
  `withLatestFrom(fields$)` subscription becomes the function
  `writeFidArr`, which resolves the written identifier array against the
  latest field snapshot; every write is additionally recorded in the ghost
  field `log`, together with the selection mode active at that moment;
* the mobx `reaction`s become guarded updates (`setModeInternal`,
  `setExplorationKey`): a reaction body runs only when the observed value
  actually changes, exactly as mobx schedules it;
* the public commands become functions `State → ... → State` (with their
  boolean/undefined report where the source returns one), and `Op`/`step`/
  `run` close them under sequencing from the initial state.
-/

namespace CausalView

/-- Entity participating in the causal graph (`IFieldMeta`): the coordinator
only ever inspects its stable identifier `fid`; the remaining attributes are
opaque and are represented by an uninterpreted `name`. -/
structure IFieldMeta where
  fid : String
  name : String
deriving Repr, DecidableEq

/-- Selection cardinality mode (`NodeSelectionMode`). The source enum is a
TypeScript string enum; constructor `OTHER` stands for any runtime string that
is none of the four declared members (reachable because TS enums erase to
plain strings and the source switches have `default` branches). -/
inductive NodeSelectionMode where
  | NONE
  | SINGLE
  | DOUBLE
  | MULTIPLE
  | OTHER (value : String)
deriving Repr, DecidableEq

/-- Exploration feature key (`ExplorationKey`), again a string enum with
`OTHER` for unrecognized runtime values. -/
inductive ExplorationKey where
  | AUTO_VIS
  | HYPOTHESIS_TEST
  | WHAT_IF
  | CROSS_FILTER
  | CAUSAL_INSIGHT
  | GRAPHIC_WALKER
  | PREDICT
  | OTHER (value : String)
deriving Repr, DecidableEq

/-- Graph layout method (`LayoutMethod`). -/
inductive LayoutMethod where
  | FORCE
  | CIRCULAR
  | RADIAL
  | GRID
deriving Repr, DecidableEq

/-- Node renderer reference stored in `onRenderNode`: either the entropy-based
default installed by the constructor or a custom function installed through
`setNodeRenderer`; function bodies (the default one is floating-point) are
modelled by identity only. -/
inductive Renderer where
  | defaultEntropy
  | custom (id : Nat)
deriving Repr, DecidableEq

/-- Event kinds of the listener table. -/
inductive EventKind where
  | nodeClick
  | nodeDoubleClick
deriving Repr, DecidableEq

/-- Listener table (`listeners`): callbacks are modelled by opaque numeric
handles, kept per event kind in registration order. -/
structure Listeners where
  nodeClick : List Nat
  nodeDoubleClick : List Nat
deriving Repr, DecidableEq

/-- Record of one write to the selection channel `selectedFidArr$`, together
with the selection mode active at the moment of the write. The `log` of these
records is ghost data used to state trace properties; the source performs the
write with `this.selectedFidArr$.next(fidArr)`. -/
structure ChannelWrite where
  fidArr : List String
  mode : NodeSelectionMode
deriving Repr, DecidableEq

/-- Lookup `fields.find(which => which.fid === fid)` used by the
`selectedFidArr$` subscription. -/
def findFid (fields : List IFieldMeta) (fid : String) : Option IFieldMeta :=
  fields.find? (fun f => f.fid == fid)

/-- One step of the `fidArr.reduce` body of the subscription: a resolved field
is appended to the nodes, an unresolved identifier is appended to the warning
log (the source calls `console.warn` and keeps going). -/
def resolveStep (fields : List IFieldMeta) (acc : List IFieldMeta × List String)
    (fid : String) : List IFieldMeta × List String :=
  match findFid fields fid with
  | some f => (acc.1 ++ [f], acc.2)
  | none => (acc.1, acc.2 ++ [fid])

/-- The whole `fidArr.reduce(..., [])` of the subscription: the resolved nodes
together with the identifiers that produced a warning. -/
def resolveFull (fidArr : List String) (fields : List IFieldMeta) :
    List IFieldMeta × List String :=
  fidArr.foldl (resolveStep fields) ([], [])

/-- Resolved selection produced by one emission of `selectedFidArr$`. -/
def resolve (fidArr : List String) (fields : List IFieldMeta) : List IFieldMeta :=
  (resolveFull fidArr fields).1

/-- Identifiers of one emission that had no matching field. -/
def resolveWarnings (fidArr : List String) (fields : List IFieldMeta) : List String :=
  (resolveFull fidArr fields).2

/-- State of one `CausalViewStore` instance. `latestFields` is the latest
value observed on `fields$ = toStream(() => causalStore.fields, true)`;
`liveReactions`/`liveSubscriptions` count the three mobx reactions and the one
rx subscription installed by the constructor; `log` is the ghost write log. -/
structure State where
  explorationKey : ExplorationKey
  graphNodeSelectionMode : NodeSelectionMode
  selectedNodes : List IFieldMeta
  latestFields : List IFieldMeta
  layoutMethod : LayoutMethod
  onRenderNode : Option Renderer
  listeners : Listeners
  liveReactions : Nat
  liveSubscriptions : Nat
  log : List ChannelWrite
deriving Repr, DecidableEq

/-- Initial state set up by the field initializers and the constructor:
`explorationKey = AUTO_VIS`, `graphNodeSelectionMode = MULTIPLE`, empty
selection, `layoutMethod = FORCE`, and the default entropy renderer installed.
Modelled from the spec: the initial value of the upstream
`causalStore.fields` (its store is outside the excerpt) is taken to be the
empty snapshot, which is what `fields$` emits immediately on subscription
before any real snapshot has been produced. -/
def init : State where
  explorationKey := .AUTO_VIS
  graphNodeSelectionMode := .MULTIPLE
  selectedNodes := []
  latestFields := []
  layoutMethod := .FORCE
  onRenderNode := some .defaultEntropy
  listeners := ⟨[], []⟩
  liveReactions := 3
  liveSubscriptions := 1
  log := []

/-- Getter `selectedFieldGroup` (the source returns a defensive copy via
`slice(0)`; a pure list needs no copy). -/
def selectedFieldGroup (s : State) : List IFieldMeta :=
  s.selectedNodes

/-- Getter `selectedField = this._selectedNodes.at(0) ?? null`. -/
def selectedField (s : State) : Option IFieldMeta :=
  s.selectedNodes.head?

/-- Identifiers of the currently resolved selection,
`this.selectedFieldGroup.map(f => f.fid)`. -/
def groupFids (s : State) : List String :=
  s.selectedNodes.map IFieldMeta.fid

/-- Emission of `fidArr` on `selectedFidArr$`: the subscription combines it
with the latest `fields$` value and replaces `_selectedNodes` with the
resolution result. The ghost log records the array and the mode active at the
write. -/
def writeFidArr (s : State) (fidArr : List String) : State :=
  { s with
    selectedNodes := resolve fidArr s.latestFields
    log := s.log ++ [⟨fidArr, s.graphNodeSelectionMode⟩] }

/-- Body of the reaction on `graphNodeSelectionMode`: SINGLE and DOUBLE clamp
`_selectedNodes` to `slice(length - 1)` (its last element), MULTIPLE leaves it
alone, the default branch (NONE or unrecognized) clears it. -/
def clampForMode (m : NodeSelectionMode) (nodes : List IFieldMeta) : List IFieldMeta :=
  match m with
  | .SINGLE | .DOUBLE => nodes.drop (nodes.length - 1)
  | .MULTIPLE => nodes
  | _ => []

/-- Assignment to `this.graphNodeSelectionMode` as mobx executes it: when the
new value equals the old one no change notification is produced and the
reaction body does not run; otherwise the reaction clamps the selection
according to the new mode. -/
def setModeInternal (s : State) (m : NodeSelectionMode) : State :=
  if m = s.graphNodeSelectionMode then s
  else
    { s with
      graphNodeSelectionMode := m
      selectedNodes := clampForMode m s.selectedNodes }

/-- Public command `setNodeSelectionMode`. -/
def setNodeSelectionMode (s : State) (m : NodeSelectionMode) : State :=
  setModeInternal s m

/-- The switch inside the reaction on `explorationKey`. -/
def explorationModeTable : ExplorationKey → NodeSelectionMode
  | .CAUSAL_INSIGHT | .PREDICT => .SINGLE
  | .AUTO_VIS | .CROSS_FILTER => .MULTIPLE
  | .HYPOTHESIS_TEST => .DOUBLE
  | _ => .NONE

/-- Public command `setExplorationKey`: assigns `explorationKey`; the reaction
on it runs only when the value actually changes, and then drives the selection
mode through the lookup table. -/
def setExplorationKey (s : State) (k : ExplorationKey) : State :=
  if k = s.explorationKey then s
  else setModeInternal { s with explorationKey := k } (explorationModeTable k)

/-- Test `this.selectedField?.fid === fid` (optional chaining yields a
non-match when there is no selected field). -/
def fidMatchesSelected (s : State) (fid : String) : Bool :=
  match selectedField s with
  | some f => f.fid == fid
  | none => false

/-- Public command `toggleNodeSelected`, returning the state after any channel
write together with the source's return value (`some true` = selected,
`some false` = deselected or no-op, `none` = undefined). -/
def toggleNodeSelected (s : State) (fid : String) : State × Option Bool :=
  match s.graphNodeSelectionMode with
  | .SINGLE =>
    if fidMatchesSelected s fid then
      (writeFidArr s [], some false)
    else
      (writeFidArr s [fid], some true)
  | .DOUBLE =>
    if (selectedFieldGroup s).any (fun f => f.fid == fid) then
      (writeFidArr s
        (((selectedFieldGroup s).filter (fun f => f.fid != fid)).map IFieldMeta.fid),
       some false)
    else
      match selectedFieldGroup s with
      | [] => (writeFidArr s [fid], some true)
      | [f0] => (writeFidArr s [f0.fid, fid], some false)
      | _ => (s, some false)
  | .MULTIPLE =>
    let selectedFidArr := groupFids s
    (writeFidArr s
      (if fid ∈ selectedFidArr then selectedFidArr.erase fid
       else selectedFidArr ++ [fid]),
     none)
  | _ => (s, none)

/-- Public command `selectNode` (add-only in MULTIPLE, same as toggle in
SINGLE, no-op elsewhere). -/
def selectNode (s : State) (fid : String) : State × Option Bool :=
  match s.graphNodeSelectionMode with
  | .SINGLE =>
    if fidMatchesSelected s fid then
      (writeFidArr s [], some false)
    else
      (writeFidArr s [fid], some true)
  | .MULTIPLE =>
    let selectedFidArr := groupFids s
    (writeFidArr s
      (if fid ∈ selectedFidArr then selectedFidArr else selectedFidArr ++ [fid]),
     none)
  | _ => (s, none)

/-- Public command `clearSelected`. -/
def clearSelected (s : State) : State :=
  writeFidArr s []

/-- Emission of a new entity snapshot on `fields$` (upstream push). It only
refreshes the latest value consulted by future writes; `withLatestFrom` does
not re-resolve the current selection. -/
def fieldsUpdate (s : State) (fields : List IFieldMeta) : State :=
  { s with latestFields := fields }

/-- Body of the reaction on `causalStore.model.mergedPag`: a change of the
upstream merged-model identity writes the empty array to the channel. -/
def modelChange (s : State) : State :=
  writeFidArr s []

/-- Public command `setLayout`. -/
def setLayout (s : State) (l : LayoutMethod) : State :=
  { s with layoutMethod := l }

/-- Public command `setNodeRenderer`. -/
def setNodeRenderer (s : State) (r : Option Renderer) : State :=
  { s with onRenderNode := r }

/-- Public command `addEventListener`: appends the callback handle. -/
def addEventListener (s : State) (k : EventKind) (cb : Nat) : State :=
  match k with
  | .nodeClick =>
    { s with listeners := { s.listeners with nodeClick := s.listeners.nodeClick ++ [cb] } }
  | .nodeDoubleClick =>
    { s with listeners := { s.listeners with nodeDoubleClick := s.listeners.nodeDoubleClick ++ [cb] } }

/-- Public command `removeEventListener`: keeps the callbacks different from
the removed one. -/
def removeEventListener (s : State) (k : EventKind) (cb : Nat) : State :=
  match k with
  | .nodeClick =>
    { s with listeners := { s.listeners with nodeClick := s.listeners.nodeClick.filter (fun c => c != cb) } }
  | .nodeDoubleClick =>
    { s with listeners := { s.listeners with nodeDoubleClick := s.listeners.nodeDoubleClick.filter (fun c => c != cb) } }

/-- One teardown effect performed by `destroy`. -/
inductive TeardownAction where
  | disposeReaction (i : Nat)
  | unsubscribe (i : Nat)
  | clearListenerList (k : EventKind)
deriving Repr, DecidableEq

/-- Phase of a teardown effect: reaction disposal happens in phase 0, stream
unsubscription in phase 1, listener clearing in phase 2. -/
def teardownPhase : TeardownAction → Nat
  | .disposeReaction _ => 0
  | .unsubscribe _ => 1
  | .clearListenerList _ => 2

/-- Trace of `destroy()`: it first disposes the three mobx reactions in array
order, then unsubscribes the single rx subscription, then resets both listener
lists to empty. -/
def destroyTrace : List TeardownAction :=
  [.disposeReaction 0, .disposeReaction 1, .disposeReaction 2,
   .unsubscribe 0,
   .clearListenerList .nodeClick, .clearListenerList .nodeDoubleClick]

/-- The `destroy` closure built by the constructor: returns the state after
teardown together with the trace of effects in execution order. -/
def destroy (s : State) : State × List TeardownAction :=
  ({ s with
      liveReactions := 0
      liveSubscriptions := 0
      listeners := ⟨[], []⟩ },
   destroyTrace)

/-- Operations driving a store instance: the five public selection commands
plus the two upstream events feeding the reactive bindings. -/
inductive Op where
  | setExplorationKey (k : ExplorationKey)
  | setNodeSelectionMode (m : NodeSelectionMode)
  | toggleNodeSelected (fid : String)
  | selectNode (fid : String)
  | clearSelected
  | fieldsUpdate (fields : List IFieldMeta)
  | modelChange
deriving Repr, DecidableEq

/-- One operation applied to a state (reports discarded). -/
def step (s : State) : Op → State
  | .setExplorationKey k => setExplorationKey s k
  | .setNodeSelectionMode m => setNodeSelectionMode s m
  | .toggleNodeSelected fid => (toggleNodeSelected s fid).1
  | .selectNode fid => (selectNode s fid).1
  | .clearSelected => clearSelected s
  | .fieldsUpdate fields => fieldsUpdate s fields
  | .modelChange => modelChange s

/-- State reached from the initial state by a sequence of operations. -/
def run (ops : List Op) : State :=
  ops.foldl step init

/-- Cardinality cap of a selection mode (`none` = unbounded). Unrecognized
modes get cap 0: the only writes possible while such a mode is active are the
unconditional empty writes. -/
def modeCap : NodeSelectionMode → Option Nat
  | .NONE => some 0
  | .SINGLE => some 1
  | .DOUBLE => some 2
  | .MULTIPLE => none
  | .OTHER _ => some 0

/-- Check of a length against a mode's cardinality cap. -/
def withinCap (m : NodeSelectionMode) (n : Nat) : Bool :=
  match modeCap m with
  | some c => decide (n ≤ c)
  | none => true

/-- A field found by `findFid` carries exactly the looked-up identifier. -/
theorem findFid_eq {fields : List IFieldMeta} {x : String} {f : IFieldMeta}
    (h : findFid fields x = some f) : f.fid = x := by
  have := List.find?_some h
  exact eq_of_beq this

/-- Closed form of the reduce in the subscription, with general accumulator. -/
theorem foldl_resolveStep (fields : List IFieldMeta) (fidArr : List String)
    (nodes : List IFieldMeta) (warns : List String) :
    fidArr.foldl (resolveStep fields) (nodes, warns) =
      (nodes ++ fidArr.filterMap (findFid fields),
       warns ++ fidArr.filter (fun x => (findFid fields x).isNone)) := by
  induction fidArr generalizing nodes warns with
  | nil => simp
  | cons x xs ih =>
    cases h : findFid fields x with
    | some f =>
      simp only [List.foldl_cons, resolveStep, h, ih, List.filterMap_cons,
        List.filter_cons, Option.isNone_some, List.append_assoc,
        List.singleton_append, Bool.false_eq_true, if_false]
    | none =>
      simp only [List.foldl_cons, resolveStep, h, ih, List.filterMap_cons,
        List.filter_cons, Option.isNone_none, List.append_assoc,
        List.singleton_append, if_true]

/-- Resolution keeps, in order, the first matching field of each identifier. -/
theorem resolve_eq_filterMap (fidArr : List String) (fields : List IFieldMeta) :
    resolve fidArr fields = fidArr.filterMap (findFid fields) := by
  simp [resolve, resolveFull, foldl_resolveStep]

/-- Warnings are exactly the identifiers without a matching field, in order. -/
theorem resolveWarnings_eq_filter (fidArr : List String) (fields : List IFieldMeta) :
    resolveWarnings fidArr fields =
      fidArr.filter (fun x => (findFid fields x).isNone) := by
  simp [resolveWarnings, resolveFull, foldl_resolveStep]

/-- Identifiers of the resolution result are the resolvable identifiers of the
input, in input order. -/
theorem resolve_map_fid (fidArr : List String) (fields : List IFieldMeta) :
    (resolve fidArr fields).map IFieldMeta.fid =
      fidArr.filter (fun x => (findFid fields x).isSome) := by
  rw [resolve_eq_filterMap]
  induction fidArr with
  | nil => rfl
  | cons x xs ih =>
    cases h : findFid fields x with
    | some f =>
      have hf : f.fid = x := findFid_eq h
      simp [List.filterMap_cons, List.filter_cons, h, hf, ih]
    | none =>
      simp [List.filterMap_cons, List.filter_cons, h, ih]

/-- The resolution result is never longer than the written identifier array. -/
theorem resolve_length_le (fidArr : List String) (fields : List IFieldMeta) :
    (resolve fidArr fields).length ≤ fidArr.length := by
  rw [resolve_eq_filterMap]
  exact List.length_filterMap_le _ _

/-- A duplicate-free identifier array resolves to nodes with duplicate-free
identifiers. -/
theorem resolve_nodup {fidArr : List String} (fields : List IFieldMeta)
    (h : fidArr.Nodup) : ((resolve fidArr fields).map IFieldMeta.fid).Nodup := by
  rw [resolve_map_fid]
  exact h.filter _

/-- Resolving the empty identifier array yields the empty selection. -/
theorem resolve_nil (fields : List IFieldMeta) : resolve [] fields = [] := rfl

/-- Against the empty snapshot, every identifier array resolves to the empty
selection. -/
theorem resolve_nil_fields (fidArr : List String) : resolve fidArr [] = [] := by
  rw [resolve_eq_filterMap]
  induction fidArr with
  | nil => rfl
  | cons x xs ih => simp [List.filterMap_cons, findFid, ih]

/-- Resolving a single identifier yields the found field, if any. -/
theorem resolve_singleton (x : String) (fields : List IFieldMeta) :
    resolve [x] fields = (findFid fields x).toList := by
  rw [resolve_eq_filterMap]
  cases h : findFid fields x <;> simp [List.filterMap_cons, h]

/-- A cap check is monotone downwards in the length. -/
theorem withinCap_mono {m : NodeSelectionMode} {n k : Nat}
    (h : withinCap m n = true) (hk : k ≤ n) : withinCap m k = true := by
  unfold withinCap at h ⊢
  cases hcap : modeCap m with
  | some c =>
    rw [hcap] at h
    simp only [decide_eq_true_eq] at h ⊢
    omega
  | none => rfl

/-- Length zero satisfies every cap. -/
theorem withinCap_zero (m : NodeSelectionMode) : withinCap m 0 = true := by
  unfold withinCap
  cases modeCap m <;> simp

/-- Dropping all but the last entry is taking the last entry. -/
theorem drop_length_sub_one {α : Type} (l : List α) :
    l.drop (l.length - 1) = l.getLast?.toList := by
  induction l with
  | nil => rfl
  | cons a t ih =>
    cases t with
    | nil => rfl
    | cons b u =>
      have h1 : (a :: b :: u).length - 1 = (b :: u).length := by
        simp
      rw [h1, List.getLast?_cons_cons]
      have h2 : (b :: u).length = (b :: u).length - 1 + 1 := by
        simp
      calc (a :: b :: u).drop (b :: u).length
          = (b :: u).drop ((b :: u).length - 1) := by
            rw [h2, List.drop_succ_cons, ← h2]
        _ = (b :: u).getLast?.toList := ih

/-- Selection-side invariant: the identifiers of the resolved selection are
duplicate-free and its size respects the cap of the active mode. -/
def SelInv (s : State) : Prop :=
  (groupFids s).Nodup ∧
    withinCap s.graphNodeSelectionMode s.selectedNodes.length = true

/-- Every write recorded so far was duplicate-free and within the cap of the
mode active at its moment. -/
def LogOk (s : State) : Prop :=
  ∀ w ∈ s.log, w.fidArr.Nodup ∧ withinCap w.mode w.fidArr.length = true

/-- A duplicate-free, cap-respecting write preserves both invariants. -/
theorem writeFidArr_inv {s : State} {fidArr : List String}
    (hl : LogOk s) (hn : fidArr.Nodup)
    (hc : withinCap s.graphNodeSelectionMode fidArr.length = true) :
    SelInv (writeFidArr s fidArr) ∧ LogOk (writeFidArr s fidArr) := by
  refine ⟨⟨?_, ?_⟩, ?_⟩
  · exact resolve_nodup _ hn
  · exact withinCap_mono hc (resolve_length_le _ _)
  · intro w hw
    simp only [writeFidArr, List.mem_append, List.mem_singleton] at hw
    rcases hw with hw | hw
    · exact hl w hw
    · subst hw
      exact ⟨hn, hc⟩

/-- Behaviour of `toggleNodeSelected` while the SINGLE mode is active. -/
theorem toggleNodeSelected_single (s : State) (fid : String)
    (hm : s.graphNodeSelectionMode = NodeSelectionMode.SINGLE) :
    toggleNodeSelected s fid =
      if fidMatchesSelected s fid then (writeFidArr s [], some false)
      else (writeFidArr s [fid], some true) := by
  simp only [toggleNodeSelected, hm]

/-- Behaviour of `toggleNodeSelected` while the DOUBLE mode is active. -/
theorem toggleNodeSelected_double (s : State) (fid : String)
    (hm : s.graphNodeSelectionMode = NodeSelectionMode.DOUBLE) :
    toggleNodeSelected s fid =
      if s.selectedNodes.any (fun f => f.fid == fid) then
        (writeFidArr s
          ((s.selectedNodes.filter (fun f => f.fid != fid)).map IFieldMeta.fid),
         some false)
      else
        match s.selectedNodes with
        | [] => (writeFidArr s [fid], some true)
        | [f0] => (writeFidArr s [f0.fid, fid], some false)
        | _ => (s, some false) := by
  simp only [toggleNodeSelected, hm, selectedFieldGroup]

/-- Behaviour of `toggleNodeSelected` while the MULTIPLE mode is active. -/
theorem toggleNodeSelected_multiple (s : State) (fid : String)
    (hm : s.graphNodeSelectionMode = NodeSelectionMode.MULTIPLE) :
    toggleNodeSelected s fid =
      (writeFidArr s
        (if fid ∈ groupFids s then (groupFids s).erase fid
         else groupFids s ++ [fid]),
       none) := by
  simp only [toggleNodeSelected, hm]

/-- Behaviour of `selectNode` while the SINGLE mode is active. -/
theorem selectNode_single (s : State) (fid : String)
    (hm : s.graphNodeSelectionMode = NodeSelectionMode.SINGLE) :
    selectNode s fid =
      if fidMatchesSelected s fid then (writeFidArr s [], some false)
      else (writeFidArr s [fid], some true) := by
  simp only [selectNode, hm]

/-- Behaviour of `selectNode` while the MULTIPLE mode is active. -/
theorem selectNode_multiple (s : State) (fid : String)
    (hm : s.graphNodeSelectionMode = NodeSelectionMode.MULTIPLE) :
    selectNode s fid =
      (writeFidArr s
        (if fid ∈ groupFids s then groupFids s else groupFids s ++ [fid]),
       none) := by
  simp only [selectNode, hm]

/-- The clamp performed by the reaction on a mode change keeps identifiers
duplicate-free and fits the new mode's cap. -/
theorem clampForMode_inv (m : NodeSelectionMode) (nodes : List IFieldMeta)
    (hn : (nodes.map IFieldMeta.fid).Nodup) :
    ((clampForMode m nodes).map IFieldMeta.fid).Nodup ∧
      withinCap m (clampForMode m nodes).length = true := by
  cases m with
  | SINGLE =>
    refine ⟨hn.sublist ((List.drop_sublist _ _).map _), ?_⟩
    simp only [clampForMode, withinCap, modeCap, List.length_drop,
      decide_eq_true_eq]
    omega
  | DOUBLE =>
    refine ⟨hn.sublist ((List.drop_sublist _ _).map _), ?_⟩
    simp only [clampForMode, withinCap, modeCap, List.length_drop,
      decide_eq_true_eq]
    omega
  | MULTIPLE => exact ⟨hn, rfl⟩
  | NONE => exact ⟨List.nodup_nil, rfl⟩
  | OTHER v => exact ⟨List.nodup_nil, rfl⟩

/-- A guarded mode assignment preserves both invariants. -/
theorem setModeInternal_inv {s : State} (m : NodeSelectionMode)
    (hs : SelInv s) (hl : LogOk s) :
    SelInv (setModeInternal s m) ∧ LogOk (setModeInternal s m) := by
  unfold setModeInternal
  split
  · exact ⟨hs, hl⟩
  · exact ⟨clampForMode_inv m s.selectedNodes hs.1, hl⟩

/-- Appending an absent identifier preserves duplicate-freeness. -/
theorem nodup_append_absent {l : List String} {fid : String}
    (hn : l.Nodup) (hmem : fid ∉ l) : (l ++ [fid]).Nodup := by
  rw [List.nodup_append]
  refine ⟨hn, List.nodup_singleton fid, ?_⟩
  intro a ha hb
  rw [List.mem_singleton] at hb
  subst hb
  exact hmem ha

/-- Every operation preserves both invariants. -/
theorem step_inv (s : State) (op : Op) (h : SelInv s ∧ LogOk s) :
    SelInv (step s op) ∧ LogOk (step s op) := by
  obtain ⟨hs, hl⟩ := h
  cases op with
  | setExplorationKey k =>
    simp only [step, setExplorationKey]
    split
    · exact ⟨hs, hl⟩
    · exact setModeInternal_inv _ hs hl
  | setNodeSelectionMode m =>
    exact setModeInternal_inv m hs hl
  | toggleNodeSelected fid =>
    cases hm : s.graphNodeSelectionMode with
    | SINGLE =>
      simp only [step, toggleNodeSelected_single s fid hm]
      split
      · exact writeFidArr_inv hl List.nodup_nil (by rw [hm]; rfl)
      · exact writeFidArr_inv hl (List.nodup_singleton fid) (by rw [hm]; rfl)
    | DOUBLE =>
      simp only [step, toggleNodeSelected_double s fid hm]
      split
      · refine writeFidArr_inv hl ?_ ?_
        · exact hs.1.sublist ((List.filter_sublist s.selectedNodes).map IFieldMeta.fid)
        · refine withinCap_mono hs.2 ?_
          simp only [List.length_map]
          exact List.length_filter_le _ _
      · rename_i hany
        cases hg : s.selectedNodes with
        | nil =>
          exact writeFidArr_inv hl (List.nodup_singleton fid) (by rw [hm]; rfl)
        | cons f0 t =>
          cases t with
          | nil =>
            rw [hg] at hany
            simp only [List.any_cons, List.any_nil, Bool.or_false] at hany
            refine writeFidArr_inv hl ?_ (by rw [hm]; rfl)
            have hne : ¬ f0.fid = fid := by
              intro hcontra
              rw [hcontra] at hany
              simp at hany
            simp [List.nodup_cons, hne]
          | cons f1 u =>
            exact ⟨hs, hl⟩
    | MULTIPLE =>
      simp only [step, toggleNodeSelected_multiple s fid hm]
      by_cases hmem : fid ∈ groupFids s
      · rw [if_pos hmem]
        exact writeFidArr_inv hl (hs.1.erase fid) (by rw [hm]; rfl)
      · rw [if_neg hmem]
        exact writeFidArr_inv hl (nodup_append_absent hs.1 hmem) (by rw [hm]; rfl)
    | NONE =>
      have : step s (Op.toggleNodeSelected fid) = s := by
        simp only [step, toggleNodeSelected, hm]
      rw [this]
      exact ⟨hs, hl⟩
    | OTHER v =>
      have : step s (Op.toggleNodeSelected fid) = s := by
        simp only [step, toggleNodeSelected, hm]
      rw [this]
      exact ⟨hs, hl⟩
  | selectNode fid =>
    cases hm : s.graphNodeSelectionMode with
    | SINGLE =>
      simp only [step, selectNode_single s fid hm]
      split
      · exact writeFidArr_inv hl List.nodup_nil (by rw [hm]; rfl)
      · exact writeFidArr_inv hl (List.nodup_singleton fid) (by rw [hm]; rfl)
    | MULTIPLE =>
      simp only [step, selectNode_multiple s fid hm]
      by_cases hmem : fid ∈ groupFids s
      · rw [if_pos hmem]
        exact writeFidArr_inv hl hs.1 (by rw [hm]; rfl)
      · rw [if_neg hmem]
        exact writeFidArr_inv hl (nodup_append_absent hs.1 hmem) (by rw [hm]; rfl)
    | DOUBLE =>
      have : step s (Op.selectNode fid) = s := by
        simp only [step, selectNode, hm]
      rw [this]
      exact ⟨hs, hl⟩
    | NONE =>
      have : step s (Op.selectNode fid) = s := by
        simp only [step, selectNode, hm]
      rw [this]
      exact ⟨hs, hl⟩
    | OTHER v =>
      have : step s (Op.selectNode fid) = s := by
        simp only [step, selectNode, hm]
      rw [this]
      exact ⟨hs, hl⟩
  | clearSelected =>
    exact writeFidArr_inv hl List.nodup_nil (withinCap_zero _)
  | fieldsUpdate fields =>
    exact ⟨hs, hl⟩
  | modelChange =>
    exact writeFidArr_inv hl List.nodup_nil (withinCap_zero _)

/-- Both invariants hold along any run started in an invariant state. -/
theorem foldl_step_inv (ops : List Op) (s : State) (h : SelInv s ∧ LogOk s) :
    SelInv (ops.foldl step s) ∧ LogOk (ops.foldl step s) := by
  induction ops generalizing s with
  | nil => exact h
  | cons op ops ih => exact ih _ (step_inv s op h)

/-- The initial state satisfies both invariants. -/
theorem init_inv : SelInv init ∧ LogOk init := by
  refine ⟨⟨List.nodup_nil, rfl⟩, ?_⟩
  intro w hw
  exact absurd hw (List.not_mem_nil w)

/-- Both invariants hold in every reachable state. -/
theorem run_inv (ops : List Op) : SelInv (run ops) ∧ LogOk (run ops) :=
  foldl_step_inv ops init init_inv

/-- Mapping the identifier projection over a filter on the identifier commutes
with filtering the mapped identifiers. -/
theorem filter_fid_comm (l : List IFieldMeta) (fid : String) :
    (l.filter (fun f => f.fid != fid)).map IFieldMeta.fid =
      (l.map IFieldMeta.fid).filter (fun x => x != fid) := by
  induction l with
  | nil => rfl
  | cons f t ih =>
    cases h : f.fid != fid with
    | true => simp [List.filter_cons, List.map_cons, h, ih]
    | false => simp [List.filter_cons, List.map_cons, h, ih]

/-- Membership of an identifier in the selection's identifiers matches the
source's `some(f => f.fid === fid)` test. -/
theorem mem_groupFids_iff_any (s : State) (fid : String) :
    fid ∈ groupFids s ↔ s.selectedNodes.any (fun f => f.fid == fid) = true := by
  simp only [groupFids, List.any_eq_true, List.mem_map, beq_iff_eq]

/-- All operations other than a fields emission keep the latest snapshot. -/
theorem step_latestFields (s : State) (op : Op)
    (h : ∀ fields, op ≠ Op.fieldsUpdate fields) :
    (step s op).latestFields = s.latestFields := by
  cases op with
  | setExplorationKey k =>
    simp only [step, setExplorationKey]
    split
    · rfl
    · simp only [setModeInternal]
      split <;> rfl
  | setNodeSelectionMode m =>
    simp only [step, setNodeSelectionMode, setModeInternal]
    split <;> rfl
  | toggleNodeSelected fid =>
    cases hm : s.graphNodeSelectionMode with
    | SINGLE =>
      simp only [step, toggleNodeSelected_single s fid hm]
      split <;> rfl
    | DOUBLE =>
      simp only [step, toggleNodeSelected_double s fid hm]
      split
      · rfl
      · cases s.selectedNodes with
        | nil => rfl
        | cons f0 t =>
          cases t with
          | nil => rfl
          | cons f1 u => rfl
    | MULTIPLE =>
      simp only [step, toggleNodeSelected_multiple s fid hm]
      rfl
    | NONE => simp only [step, toggleNodeSelected, hm]
    | OTHER v => simp only [step, toggleNodeSelected, hm]
  | selectNode fid =>
    cases hm : s.graphNodeSelectionMode with
    | SINGLE =>
      simp only [step, selectNode_single s fid hm]
      split <;> rfl
    | MULTIPLE =>
      simp only [step, selectNode_multiple s fid hm]
      rfl
    | DOUBLE => simp only [step, selectNode, hm]
    | NONE => simp only [step, selectNode, hm]
    | OTHER v => simp only [step, selectNode, hm]
  | clearSelected => rfl
  | fieldsUpdate fields => exact absurd rfl (h fields)
  | modelChange => rfl

/-- A run without fields emissions keeps the latest snapshot of its start. -/
theorem foldl_latestFields (ops : List Op) (s : State)
    (h : ∀ fields, Op.fieldsUpdate fields ∉ ops) :
    (ops.foldl step s).latestFields = s.latestFields := by
  induction ops generalizing s with
  | nil => rfl
  | cons op ops ih =>
    have hop : ∀ fields, op ≠ Op.fieldsUpdate fields := by
      intro fields hcontra
      exact h fields (by rw [← hcontra]; exact List.mem_cons_self op ops)
    have htail : ∀ fields, Op.fieldsUpdate fields ∉ ops := fun fields hf =>
      h fields (List.mem_cons_of_mem op hf)
    rw [List.foldl_cons, ih _ htail, step_latestFields s op hop]

/-- Claim C1: for every sequence of operations starting from the initial
state, every identifier sequence written to the selection channel contains no
duplicate identifiers, and its length never exceeds the cardinality cap of the
selection mode active at the time of the write (NONE 0, SINGLE 1, DOUBLE 2,
MULTIPLE unbounded). -/
theorem C1_written_sequences_nodup_and_capped (ops : List Op) :
    ∀ w ∈ (run ops).log,
      w.fidArr.Nodup ∧ withinCap w.mode w.fidArr.length = true :=
  (run_inv ops).2

/-- Witness for C1: toggling one node from the initial state logs exactly the
write of a duplicate-free singleton within the MULTIPLE cap. -/
theorem C1_witness :
    (⟨["a"], NodeSelectionMode.MULTIPLE⟩ : ChannelWrite) ∈
        (run [Op.toggleNodeSelected "a"]).log ∧
      ((["a"] : List String).Nodup ∧
        withinCap NodeSelectionMode.MULTIPLE (["a"] : List String).length = true) :=
  ⟨by decide,
   C1_written_sequences_nodup_and_capped [Op.toggleNodeSelected "a"]
     ⟨["a"], NodeSelectionMode.MULTIPLE⟩ (by decide)⟩

/-- Claim C2: while DOUBLE mode is active, toggling `fid` removes it from the
group and reports deselected when it is present; writes the singleton and
reports selected when the group is empty; is a silent no-op reporting no-op
when the group already has two elements; and, when the group has exactly one
element, writes the completed pair while still reporting no-op. -/
theorem C2_double_toggle_behaviour (s : State) (fid : String)
    (hm : s.graphNodeSelectionMode = NodeSelectionMode.DOUBLE) :
    (fid ∈ groupFids s →
      toggleNodeSelected s fid =
        (writeFidArr s ((groupFids s).filter (fun x => x != fid)), some false)) ∧
    (s.selectedNodes = [] →
      toggleNodeSelected s fid = (writeFidArr s [fid], some true)) ∧
    (fid ∉ groupFids s → s.selectedNodes.length = 2 →
      toggleNodeSelected s fid = (s, some false)) ∧
    (∀ f0 : IFieldMeta, fid ∉ groupFids s → s.selectedNodes = [f0] →
      toggleNodeSelected s fid = (writeFidArr s [f0.fid, fid], some false)) := by
  refine ⟨?_, ?_, ?_, ?_⟩
  · intro hmem
    rw [toggleNodeSelected_double s fid hm,
      if_pos ((mem_groupFids_iff_any s fid).1 hmem), filter_fid_comm]
    rfl
  · intro hempty
    have h := toggleNodeSelected_double s fid hm
    rw [hempty] at h
    simpa using h
  · intro hnot hlen2
    have hany : ¬ (s.selectedNodes.any (fun f => f.fid == fid) = true) := fun hc =>
      hnot ((mem_groupFids_iff_any s fid).2 hc)
    rw [toggleNodeSelected_double s fid hm, if_neg hany]
    cases hg : s.selectedNodes with
    | nil => rw [hg] at hlen2; simp at hlen2
    | cons f0 t =>
      cases t with
      | nil => rw [hg] at hlen2; simp at hlen2
      | cons f1 u => rfl
  · intro f0 hnot hsingle
    have hnot' : fid ∉ s.selectedNodes.map IFieldMeta.fid := hnot
    rw [hsingle] at hnot'
    simp only [List.map_cons, List.map_nil, List.mem_singleton] at hnot'
    have hf0 : (f0.fid == fid) = false := by
      rw [beq_eq_false_iff_ne]
      exact fun hc => hnot' hc.symm
    have h := toggleNodeSelected_double s fid hm
    rw [hsingle] at h
    simpa [hf0] using h

/-- Witness for C2: from a DOUBLE-mode state holding exactly the field `a`,
toggling `b` writes the completed pair and reports no-op. -/
theorem C2_witness :
    toggleNodeSelected
        { init with
          graphNodeSelectionMode := NodeSelectionMode.DOUBLE
          selectedNodes := [⟨"a", "A"⟩]
          latestFields := [⟨"a", "A"⟩, ⟨"b", "B"⟩] } "b" =
      (writeFidArr
        { init with
          graphNodeSelectionMode := NodeSelectionMode.DOUBLE
          selectedNodes := [⟨"a", "A"⟩]
          latestFields := [⟨"a", "A"⟩, ⟨"b", "B"⟩] } ["a", "b"],
       some false) :=
  (C2_double_toggle_behaviour _ "b" rfl).2.2.2 ⟨"a", "A"⟩ (by decide) rfl

/-- Claim C3: a mode change to SINGLE or DOUBLE clamps the existing resolved
selection to its last element; a change to NONE or to an unrecognized mode
clears it; a change to MULTIPLE leaves it untouched; and the mode field takes
the new value. -/
theorem C3_setMode_selection_side_effects (s : State) (m : NodeSelectionMode)
    (hch : m ≠ s.graphNodeSelectionMode) :
    ((m = NodeSelectionMode.SINGLE ∨ m = NodeSelectionMode.DOUBLE) →
      (setNodeSelectionMode s m).selectedNodes =
        s.selectedNodes.getLast?.toList) ∧
    ((m = NodeSelectionMode.NONE ∨ ∃ v, m = NodeSelectionMode.OTHER v) →
      (setNodeSelectionMode s m).selectedNodes = []) ∧
    (m = NodeSelectionMode.MULTIPLE →
      (setNodeSelectionMode s m).selectedNodes = s.selectedNodes) ∧
    (setNodeSelectionMode s m).graphNodeSelectionMode = m := by
  have hset : setNodeSelectionMode s m =
      { s with
        graphNodeSelectionMode := m
        selectedNodes := clampForMode m s.selectedNodes } := by
    simp only [setNodeSelectionMode, setModeInternal, if_neg hch]
  rw [hset]
  refine ⟨?_, ?_, ?_, rfl⟩
  · rintro (rfl | rfl) <;> simp [clampForMode, drop_length_sub_one]
  · rintro (rfl | ⟨v, rfl⟩) <;> rfl
  · rintro rfl
    rfl

/-- Witness for C3: switching a MULTIPLE-mode selection of three fields to
SINGLE clamps it to its last element. -/
theorem C3_witness :
    (setNodeSelectionMode
        { init with
          selectedNodes := [⟨"a", "A"⟩, ⟨"b", "B"⟩, ⟨"c", "C"⟩] }
        NodeSelectionMode.SINGLE).selectedNodes =
      ([⟨"a", "A"⟩, ⟨"b", "B"⟩, ⟨"c", "C"⟩] : List IFieldMeta).getLast?.toList :=
  (C3_setMode_selection_side_effects _ _ (by decide)).1 (Or.inl rfl)

/-- Claim C4: in any run that never received an entity snapshot, the latest
snapshot is still the empty one, and a write of any identifier sequence at
that moment resolves to the empty selection while the write itself is still
performed (appended to the log), not blocked or skipped. -/
theorem C4_no_snapshot_resolution_empty (ops : List Op)
    (h : ∀ fields, Op.fieldsUpdate fields ∉ ops) (fidArr : List String) :
    (run ops).latestFields = [] ∧
      (writeFidArr (run ops) fidArr).selectedNodes = [] ∧
      (writeFidArr (run ops) fidArr).log =
        (run ops).log ++ [⟨fidArr, (run ops).graphNodeSelectionMode⟩] := by
  have hlf : (run ops).latestFields = [] := foldl_latestFields ops init h
  refine ⟨hlf, ?_, rfl⟩
  show resolve fidArr (run ops).latestFields = []
  rw [hlf]
  exact resolve_nil_fields fidArr

/-- Witness for C4: after a snapshot-free run consisting of one clear, writing
the singleton a resolves to the empty selection and is logged. -/
theorem C4_witness :
    (run [Op.clearSelected]).latestFields = [] ∧
      (writeFidArr (run [Op.clearSelected]) ["a"]).selectedNodes = [] ∧
      (writeFidArr (run [Op.clearSelected]) ["a"]).log =
        (run [Op.clearSelected]).log ++
          [⟨["a"], (run [Op.clearSelected]).graphNodeSelectionMode⟩] :=
  C4_no_snapshot_resolution_empty [Op.clearSelected]
    (by
      intro fields hf
      simp at hf) ["a"]

/-- Counterexample to claim C5 as stated: set the mode to SINGLE by hand, then
call setExplorationKey with the key that is already current (AUTO_VIS). The
reaction on the key does not run (the observed value did not change), so the
mode stays SINGLE although the lookup table maps AUTO_VIS to MULTIPLE. -/
theorem C5_counterexample :
    (run [Op.setNodeSelectionMode NodeSelectionMode.SINGLE,
          Op.setExplorationKey ExplorationKey.AUTO_VIS]).graphNodeSelectionMode =
        NodeSelectionMode.SINGLE ∧
      explorationModeTable ExplorationKey.AUTO_VIS = NodeSelectionMode.MULTIPLE ∧
      NodeSelectionMode.SINGLE ≠ NodeSelectionMode.MULTIPLE :=
  ⟨by decide, rfl, by decide⟩

/-- Claim C5 amended: after setExplorationKey with a key different from the
current one, the selection mode equals the fixed lookup table entry for it;
with the current key the call leaves the state unchanged, because the table is
re-evaluated only on actual changes of the exploration key. -/
theorem C5_amended_exploration_table (s : State) (k : ExplorationKey) :
    (k ≠ s.explorationKey →
      (setExplorationKey s k).graphNodeSelectionMode = explorationModeTable k) ∧
    (k = s.explorationKey → setExplorationKey s k = s) := by
  constructor
  · intro hne
    simp only [setExplorationKey, if_neg hne, setModeInternal]
    split
    · rename_i heq
      exact heq.symm
    · rfl
  · intro heq
    simp only [setExplorationKey, if_pos heq]

/-- Witness for C5 (amended): setting HYPOTHESIS_TEST from the initial state
yields the DOUBLE mode dictated by the table. -/
theorem C5_witness :
    (setExplorationKey init ExplorationKey.HYPOTHESIS_TEST).graphNodeSelectionMode =
      explorationModeTable ExplorationKey.HYPOTHESIS_TEST :=
  (C5_amended_exploration_table init ExplorationKey.HYPOTHESIS_TEST).1 (by decide)

/-- Counterexample to claim C6 as stated: reach a SINGLE-mode state in which
`x` is already selected; toggling `x` twice then deselects and re-selects it,
ending with the selection `x` instead of the empty selection. -/
theorem C6_counterexample :
    (run [Op.fieldsUpdate [⟨"x", "X"⟩],
          Op.setExplorationKey ExplorationKey.CAUSAL_INSIGHT,
          Op.toggleNodeSelected "x"]).graphNodeSelectionMode =
        NodeSelectionMode.SINGLE ∧
      (run [Op.fieldsUpdate [⟨"x", "X"⟩],
            Op.setExplorationKey ExplorationKey.CAUSAL_INSIGHT,
            Op.toggleNodeSelected "x", Op.toggleNodeSelected "x",
            Op.toggleNodeSelected "x"]).selectedNodes = [⟨"x", "X"⟩] ∧
      (run [Op.fieldsUpdate [⟨"x", "X"⟩],
            Op.setExplorationKey ExplorationKey.CAUSAL_INSIGHT,
            Op.toggleNodeSelected "x", Op.toggleNodeSelected "x",
            Op.toggleNodeSelected "x"]).selectedNodes ≠ [] :=
  ⟨by decide, by decide, by decide⟩

/-- Claim C6 amended: in SINGLE mode, for every identifier `x` and every state
in which `x` is not the identifier of the currently selected field (in
particular whenever the selection is empty), toggling `x` twice returns the
selection to empty. -/
theorem C6_amended_single_double_toggle (s : State) (x : String)
    (hm : s.graphNodeSelectionMode = NodeSelectionMode.SINGLE)
    (hx : fidMatchesSelected s x = false) :
    ((toggleNodeSelected (toggleNodeSelected s x).1 x).1).selectedNodes = [] := by
  have h1 : (toggleNodeSelected s x).1 = writeFidArr s [x] := by
    rw [toggleNodeSelected_single s x hm, if_neg (by simp [hx])]
  rw [h1]
  have hm1 : (writeFidArr s [x]).graphNodeSelectionMode =
      NodeSelectionMode.SINGLE := hm
  have hsel1 : (writeFidArr s [x]).selectedNodes =
      (findFid s.latestFields x).toList := by
    show resolve [x] s.latestFields = _
    exact resolve_singleton x s.latestFields
  cases hf : findFid s.latestFields x with
  | some f =>
    have hfid : f.fid = x := findFid_eq hf
    have hmatch : fidMatchesSelected (writeFidArr s [x]) x = true := by
      simp [fidMatchesSelected, selectedField, hsel1, hf, hfid]
    rw [toggleNodeSelected_single _ x hm1, if_pos hmatch]
    rfl
  | none =>
    have hmatch : fidMatchesSelected (writeFidArr s [x]) x = false := by
      simp [fidMatchesSelected, selectedField, hsel1, hf]
    rw [toggleNodeSelected_single _ x hm1, if_neg (by simp [hmatch])]
    show resolve [x] (writeFidArr s [x]).latestFields = []
    have hlf : (writeFidArr s [x]).latestFields = s.latestFields := rfl
    rw [hlf, resolve_singleton, hf]
    rfl

/-- Witness for C6 (amended): from a SINGLE-mode state with empty selection
and a snapshot containing `x`, toggling `x` twice selects and then deselects
it, ending empty. -/
theorem C6_witness :
    ((toggleNodeSelected
        (toggleNodeSelected
          { init with
            graphNodeSelectionMode := NodeSelectionMode.SINGLE
            latestFields := [⟨"x", "X"⟩] } "x").1 "x").1).selectedNodes = [] :=
  C6_amended_single_double_toggle _ "x" rfl rfl

/-- Claim C7: resolution produces, in the order of the written identifier
sequence, the entity found for each identifier; identifiers without a matching
entity in the snapshot are omitted from the resolved output and logged as
warnings; resolution is a total function and never fails. -/
theorem C7_resolution_matches_in_order (fidArr : List String)
    (fields : List IFieldMeta) :
    resolve fidArr fields = fidArr.filterMap (findFid fields) ∧
      (resolve fidArr fields).map IFieldMeta.fid =
        fidArr.filter (fun x => (findFid fields x).isSome) ∧
      resolveWarnings fidArr fields =
        fidArr.filter (fun x => (findFid fields x).isNone) :=
  ⟨resolve_eq_filterMap fidArr fields,
   resolve_map_fid fidArr fields,
   resolveWarnings_eq_filter fidArr fields⟩

/-- Claim C8: a change of the upstream merged-model identity writes the empty
identifier sequence to the selection channel, so the resolved selection
becomes empty regardless of the current mode and of the prior selection. -/
theorem C8_model_change_resets_selection (s : State) :
    (modelChange s).selectedNodes = [] ∧
      (modelChange s).log = s.log ++ [⟨[], s.graphNodeSelectionMode⟩] :=
  ⟨rfl, rfl⟩

/-- Claim C9: destroy performs its teardown in the fixed order reaction
disposals first, then the stream unsubscription, then the listener resets, and
afterwards both listener lists are empty and no reaction or subscription is
live. -/
theorem C9_destroy_teardown (s : State) :
    (destroy s).2 = destroyTrace ∧
      List.Pairwise (fun a b => teardownPhase a ≤ teardownPhase b)
        (destroy s).2 ∧
      (destroy s).1.listeners.nodeClick = [] ∧
      (destroy s).1.listeners.nodeDoubleClick = [] ∧
      (destroy s).1.liveReactions = 0 ∧
      (destroy s).1.liveSubscriptions = 0 := by
  refine ⟨rfl, ?_, rfl, rfl, rfl, rfl⟩
  show List.Pairwise (fun a b => teardownPhase a ≤ teardownPhase b) destroyTrace
  decide

/-- Claim C10: a newly constructed coordinator starts with exploration key
AUTO_VIS, selection mode MULTIPLE, an empty selection (empty group and no
selected field), the FORCE layout, and the default entropy-based node renderer
already installed. -/
theorem C10_initial_state :
    init.explorationKey = ExplorationKey.AUTO_VIS ∧
      init.graphNodeSelectionMode = NodeSelectionMode.MULTIPLE ∧
      selectedFieldGroup init = [] ∧
      selectedField init = none ∧
      init.layoutMethod = LayoutMethod.FORCE ∧
      init.onRenderNode = some Renderer.defaultEntropy :=
  ⟨rfl, rfl, rfl, rfl, rfl, rfl⟩

end CausalView
